import Mathlib

/-!
Shallow embedding of the reusable core of `src/app.py` (a Streamlit
dashboard "Tendência de Reservas + Projeção"): the Brazilian-locale
numeric parser `parse_br_number`, the display formatter `br_int`, and the
year aggregation / ranking engine (`pivot_table` + `get_year_value` /
`get_year_all` + the two ranking constructions).

Modelling conventions:
- Python floats are modelled as exact rationals (`ℚ`);
- pandas missing values (`None` / `NaN`) are `Option.none`;
- the external Prophet forecaster is an opaque oracle parameter
  (the spec treats it as an external collaborator);
- observation timestamps are modelled as valid month-resolution dates
  (rows with an unparseable `ds` are outside the model).
-/

namespace Reservas

/-- A cell value as seen by `parse_br_number` (src/app.py 11-40): the
null/NaN sentinel, an already-numeric value, or a string. -/
inductive Cell where
  | null
  | num (q : ℚ)
  | str (s : String)
deriving DecidableEq

/-- Numeric value of a list of decimal digit characters, most significant
first (the value Python `float` assigns to the integer part). -/
def digitsVal (l : List Char) : ℕ :=
  l.foldl (fun a c => 10 * a + (c.toNat - 48)) 0

/-- Python `float(s)` on a sign-free string over the alphabet left by the
parser's cleanup filter (digits, `.`): at most one dot, at least one
digit.  `"7."`, `".5"`, `"7"` are valid; `""`, `"."`, `"1.2.3"` are not. -/
def pyFloatCore (t : List Char) : Option ℚ :=
  if t.count '.' = 0 then
    if t ≠ [] ∧ t.all Char.isDigit then some ((digitsVal t : ℚ)) else Option.none
  else if t.count '.' = 1 then
    let ip := t.takeWhile (fun c => c != '.')
    let fp := (t.dropWhile (fun c => c != '.')).tail
    if (ip ++ fp) ≠ [] ∧ (ip ++ fp).all Char.isDigit then
      some ((digitsVal ip : ℚ) + (digitsVal fp : ℚ) / 10 ^ fp.length)
    else Option.none
  else Option.none

/-- Python `float(s)` on a string over the cleanup alphabet (digits, `.`,
`-`): an optional single leading minus, then `pyFloatCore`. -/
def pyFloat (t : List Char) : Option ℚ :=
  if t.take 1 = ['-'] then
    if t.tail.any (fun c => c == '-') then Option.none
    else (pyFloatCore t.tail).map (fun q => -q)
  else if t.any (fun c => c == '-') then Option.none
  else pyFloatCore t

/-- Embeds `parse_br_number` (src/app.py 11-40).  NaN returns the missing
marker; numerics pass through; strings have spaces removed, then: with both
`.` and `,` present the dots are removed and the comma becomes the decimal
point; with only `,` present the comma becomes the decimal point; a string
with only `.` is left unchanged (there is no lone-dot branch in the code);
finally every character other than a digit, `.`, `-` is discarded and the
result is parsed as a float, any failure yielding the missing marker. -/
def parse_br_number (x : Cell) : Option ℚ :=
  match x with
  | Cell.null => Option.none
  | Cell.num q => some q
  | Cell.str s0 =>
    let s1 := s0.toList.filter (fun c => c != ' ')
    let s2 :=
      if s1.any (fun c => c == '.') && s1.any (fun c => c == ',') then
        (s1.filter (fun c => c != '.')).map (fun c => if c == ',' then '.' else c)
      else if s1.any (fun c => c == ',') then
        s1.map (fun c => if c == ',' then '.' else c)
      else s1
    let s3 := s2.filter (fun c => c.isDigit || c == '.' || c == '-')
    pyFloat s3

/-- The digit character for a digit value `d < 10`. -/
def digitChar (d : ℕ) : Char := Char.ofNat (48 + d)

/-- Decimal digit characters of `n`, most significant first, fuelled so the
definition is structural (fuel `n` is always enough). -/
def natDigitsAux (fuel n : ℕ) : List Char :=
  match fuel with
  | 0 => []
  | f + 1 => if n = 0 then [] else natDigitsAux f (n / 10) ++ [digitChar (n % 10)]

/-- Decimal rendering of a natural number, as Python `str`/`format` does. -/
def natDigitChars (n : ℕ) : List Char :=
  if n = 0 then ['0'] else natDigitsAux n n

/-- Left-pad a digit group to width 3 with `'0'`. -/
def pad3 (l : List Char) : List Char := List.replicate (3 - l.length) '0' ++ l

/-- Scaffolding for `br_int`: thousands groups, fuelled (fuel `n` is always
enough since the group count never exceeds `n`). -/
def br_int_aux (fuel n : ℕ) : List Char :=
  match fuel with
  | 0 => natDigitChars n
  | f + 1 =>
    if n < 1000 then natDigitChars n
    else br_int_aux f (n / 1000) ++ '.' :: pad3 (natDigitChars (n % 1000))

def br_int_chars (n : ℕ) : List Char := br_int_aux n n

/-- Embeds `br_int` (src/app.py 102-105) on a natural number: Python
`f"{n:,.0f}"` digit grouping with the `,` group separator replaced by `.` —
the Brazilian-thousands rendering the spec calls `format_as_br_thousands`. -/
def br_int (n : ℕ) : String := String.mk (br_int_chars n)

/-- C1 (counterexample): the code has no lone-dot thousands branch, so
`parse_br_number "40.917"` is `40.917`, not the `40917.0` the claim
states. -/
theorem c1_counterexample :
    parse_br_number (Cell.str "40.917") = some ((40917 : ℚ) / 1000) ∧
    parse_br_number (Cell.str "40.917") ≠ some ((40917 : ℚ)) := by
  have h : parse_br_number (Cell.str "40.917")
      = some ((digitsVal ['4', '0'] : ℚ) + (digitsVal ['9', '1', '7'] : ℚ) / 10 ^ (3 : ℕ)) := rfl
  have h1 : digitsVal ['4', '0'] = 40 := by decide
  have h2 : digitsVal ['9', '1', '7'] = 917 := by decide
  rw [h, h1, h2]
  norm_num

/-- C1 (amended): `parse` maps `"1.234,56"` to `1234.56` and `"447,54"` to
`447.54` as claimed, but maps `"40.917"` to `40.917`: a string containing
only `.` is parsed with the dot as a decimal point, because the code has no
branch removing lone dots as thousands separators. -/
theorem c1_amended :
    parse_br_number (Cell.str "1.234,56") = some ((1234.56 : ℚ)) ∧
    parse_br_number (Cell.str "447,54") = some ((447.54 : ℚ)) ∧
    parse_br_number (Cell.str "40.917") = some ((40.917 : ℚ)) := by
  have ha : parse_br_number (Cell.str "1.234,56")
      = some ((digitsVal ['1', '2', '3', '4'] : ℚ) + (digitsVal ['5', '6'] : ℚ) / 10 ^ (2 : ℕ)) :=
    rfl
  have hb : parse_br_number (Cell.str "447,54")
      = some ((digitsVal ['4', '4', '7'] : ℚ) + (digitsVal ['5', '4'] : ℚ) / 10 ^ (2 : ℕ)) := rfl
  have hc : parse_br_number (Cell.str "40.917")
      = some ((digitsVal ['4', '0'] : ℚ) + (digitsVal ['9', '1', '7'] : ℚ) / 10 ^ (3 : ℕ)) := rfl
  have h1 : digitsVal ['1', '2', '3', '4'] = 1234 := by decide
  have h2 : digitsVal ['5', '6'] = 56 := by decide
  have h3 : digitsVal ['4', '4', '7'] = 447 := by decide
  have h4 : digitsVal ['5', '4'] = 54 := by decide
  have h5 : digitsVal ['4', '0'] = 40 := by decide
  have h6 : digitsVal ['9', '1', '7'] = 917 := by decide
  rw [ha, hb, hc, h1, h2, h3, h4, h5, h6]
  norm_num

/-- C7: the parser returns the explicit missing marker (`Option.none`) for
the null sentinel, the empty string, and the non-numeric string `"abc"`;
none of them is coerced to zero. -/
theorem c7_null_propagation :
    parse_br_number Cell.null = Option.none ∧
    parse_br_number (Cell.str "") = Option.none ∧
    parse_br_number (Cell.str "abc") = Option.none ∧
    parse_br_number (Cell.str "") ≠ some 0 ∧
    parse_br_number (Cell.str "abc") ≠ some 0 := by
  decide

theorem digitsVal_append_singleton (l : List Char) (c : Char) :
    digitsVal (l ++ [c]) = 10 * digitsVal l + (c.toNat - 48) := by
  simp [digitsVal, List.foldl_append]

theorem digitChar_toNat {d : ℕ} (h : d < 10) : (digitChar d).toNat = 48 + d := by
  interval_cases d <;> rfl

theorem digitChar_isDigit {d : ℕ} (h : d < 10) : (digitChar d).isDigit = true := by
  interval_cases d <;> decide

theorem natDigitsAux_val : ∀ fuel n : ℕ, n ≤ fuel → digitsVal (natDigitsAux fuel n) = n
  | 0, n, hn => by
    have h0 : n = 0 := by omega
    subst h0; rfl
  | fuel + 1, n, hn => by
    by_cases h0 : n = 0
    · subst h0; rfl
    · have hlt : n / 10 < n := Nat.div_lt_self (Nat.pos_of_ne_zero h0) (by omega)
      have ih := natDigitsAux_val fuel (n / 10) (by omega)
      have hm : n % 10 < 10 := Nat.mod_lt _ (by omega)
      rw [natDigitsAux, if_neg h0, digitsVal_append_singleton, ih, digitChar_toNat hm]
      omega

theorem natDigitsAux_digits :
    ∀ fuel n : ℕ, ∀ c ∈ natDigitsAux fuel n, c.isDigit = true
  | 0, _, c, hc => absurd hc (List.not_mem_nil c)
  | fuel + 1, n, c, hc => by
    by_cases h0 : n = 0
    · subst h0; simp [natDigitsAux] at hc
    · rw [natDigitsAux, if_neg h0, List.mem_append] at hc
      rcases hc with hc | hc
      · exact natDigitsAux_digits fuel (n / 10) c hc
      · rw [List.mem_singleton] at hc
        subst hc
        exact digitChar_isDigit (Nat.mod_lt _ (by omega))

theorem natDigitChars_val (n : ℕ) : digitsVal (natDigitChars n) = n := by
  by_cases h0 : n = 0
  · subst h0; rfl
  · rw [natDigitChars, if_neg h0]
    exact natDigitsAux_val n n le_rfl

theorem natDigitChars_digits (n : ℕ) : ∀ c ∈ natDigitChars n, c.isDigit = true := by
  by_cases h0 : n = 0
  · subst h0; intro c hc; rw [natDigitChars] at hc; simp at hc; subst hc; decide
  · rw [natDigitChars, if_neg h0]
    exact natDigitsAux_digits n n

theorem natDigitChars_ne_nil (n : ℕ) : natDigitChars n ≠ [] := by
  by_cases h0 : n = 0
  · subst h0; simp [natDigitChars]
  · obtain ⟨m, rfl⟩ : ∃ m, n = m + 1 := ⟨n - 1, by omega⟩
    simp [natDigitChars, natDigitsAux]

theorem isDigit_beq_false {c d : Char} (hc : c.isDigit = true) (hd : d.isDigit = false) :
    (c == d) = false := by
  cases h : c == d
  · rfl
  · have he : c = d := beq_iff_eq.mp h
    rw [he, hd] at hc
    exact absurd hc (by simp)

/-- On a nonempty all-digit string the parser takes every branch's identity
path and returns the digit value: no separator is found, the cleanup keeps
every character, and `float` succeeds. -/
theorem parse_br_number_digits (l : List Char) (hne : l ≠ [])
    (hd : ∀ c ∈ l, c.isDigit = true) :
    parse_br_number (Cell.str (String.mk l)) = some ((digitsVal l : ℚ)) := by
  have hsp : ∀ c ∈ l, (c != ' ') = true := fun c hc => by
    simp [bne, isDigit_beq_false (hd c hc) (by decide : (' ').isDigit = false)]
  have hdot : ∀ c ∈ l, (c == '.') = false := fun c hc =>
    isDigit_beq_false (hd c hc) (by decide)
  have hcomma : ∀ c ∈ l, (c == ',') = false := fun c hc =>
    isDigit_beq_false (hd c hc) (by decide)
  have hminus : ∀ c ∈ l, (c == '-') = false := fun c hc =>
    isDigit_beq_false (hd c hc) (by decide)
  have hfil1 : l.filter (fun c => c != ' ') = l := List.filter_eq_self.mpr hsp
  have hanyDot : (l.any fun c => c == '.') = false := by
    rw [List.any_eq_false]; intro c hc; simp [hdot c hc]
  have hanyComma : (l.any fun c => c == ',') = false := by
    rw [List.any_eq_false]; intro c hc; simp [hcomma c hc]
  have hanyMinus : (l.any fun c => c == '-') = false := by
    rw [List.any_eq_false]; intro c hc; simp [hminus c hc]
  have hfil3 : l.filter (fun c => c.isDigit || c == '.' || c == '-') = l :=
    List.filter_eq_self.mpr fun c hc => by simp [hd c hc]
  have htake : ¬ l.take 1 = ['-'] := by
    cases l with
    | nil => simp
    | cons c t =>
      simp only [List.take, List.cons.injEq]
      intro h
      have : (c == '-') = true := by rw [h.1]; exact beq_self_eq_true '-'
      rw [hminus c (List.mem_cons_self c t)] at this
      exact absurd this (by simp)
  have hcount : l.count '.' = 0 := by
    rw [List.count_eq_zero]
    intro hmem
    have := hd '.' hmem
    exact absurd this (by decide)
  show pyFloat ((if ((l.filter fun c => c != ' ').any fun c => c == '.')
        && ((l.filter fun c => c != ' ').any fun c => c == ',') then
          ((l.filter fun c => c != ' ').filter fun c => c != '.').map
            (fun c => if c == ',' then '.' else c)
        else if ((l.filter fun c => c != ' ').any fun c => c == ',') then
          (l.filter fun c => c != ' ').map (fun c => if c == ',' then '.' else c)
        else (l.filter fun c => c != ' ')).filter
      fun c => c.isDigit || c == '.' || c == '-') = some ((digitsVal l : ℚ))
  rw [hfil1, hanyDot, hanyComma]
  simp only [Bool.false_and, Bool.false_eq_true, if_false]
  rw [hfil3, pyFloat, if_neg htake, hanyMinus]
  simp only [Bool.false_eq_true, if_false]
  rw [pyFloatCore, if_pos hcount]
  rw [if_pos ⟨hne, List.all_eq_true.mpr hd⟩]

theorem br_int_chars_of_lt {n : ℕ} (h : n < 1000) : br_int_chars n = natDigitChars n := by
  cases n with
  | zero => rfl
  | succ m =>
    show br_int_aux (m + 1) (m + 1) = natDigitChars (m + 1)
    rw [br_int_aux, if_pos h]

/-- C8 (counterexample): the round-trip fails already at `N = 1234`: the
formatter renders `"1.234"`, and the parser keeps the lone dot as a decimal
point, returning `1.234` rather than `1234`. -/
theorem c8_counterexample :
    br_int 1234 = "1.234" ∧
    parse_br_number (Cell.str (br_int 1234)) = some ((1234 : ℚ) / 1000) ∧
    parse_br_number (Cell.str (br_int 1234)) ≠ some ((1234 : ℚ)) := by
  have h : parse_br_number (Cell.str (br_int 1234))
      = some ((digitsVal ['1'] : ℚ) + (digitsVal ['2', '3', '4'] : ℚ) / 10 ^ (3 : ℕ)) := rfl
  have h1 : digitsVal ['1'] = 1 := by decide
  have h2 : digitsVal ['2', '3', '4'] = 234 := by decide
  refine ⟨rfl, ?_, ?_⟩ <;> rw [h, h1, h2] <;> norm_num

/-- C8 (amended): the round-trip `parse (format_as_br_thousands N) = N`
holds exactly on the inputs whose rendering contains no thousands
separator, i.e. for all `N < 1000`; for larger `N` the rendering contains
`.` which the parser does not strip (see the counterexample). -/
theorem c8_amended (n : ℕ) (h : n < 1000) :
    parse_br_number (Cell.str (br_int n)) = some ((n : ℚ)) := by
  rw [br_int, br_int_chars_of_lt h,
    parse_br_number_digits _ (natDigitChars_ne_nil n) (natDigitChars_digits n),
    natDigitChars_val]

theorem c8_witness :
    (447 : ℕ) < 1000 ∧ parse_br_number (Cell.str (br_int 447)) = some (((447 : ℕ) : ℚ)) :=
  ⟨by decide, c8_amended 447 (by decide)⟩

/-- A month-resolution timestamp (`ds` after `pd.to_datetime`). -/
structure Date where
  year : ℤ
  month : ℤ
deriving DecidableEq

/-- pandas `Timestamp` order, `a <= b`, lexicographic on (year, month). -/
def dateLE (a b : Date) : Prop :=
  a.year < b.year ∨ (a.year = b.year ∧ a.month ≤ b.month)

/-- pandas `Timestamp` order, `a < b`. -/
def dateLT (a b : Date) : Prop :=
  a.year < b.year ∨ (a.year = b.year ∧ a.month < b.month)

instance (a b : Date) : Decidable (dateLE a b) := by
  unfold dateLE; exact inferInstance

instance (a b : Date) : Decidable (dateLT a b) := by
  unfold dateLT; exact inferInstance

/-- One row of the loaded table after `load_data`: region (`UF`), month
(`ds`) and the raw measure cell (`y` before parsing).  Rows whose `UF` or
`ds` failed to load are outside the model. -/
structure Obs where
  uf : String
  ds : Date
  raw : Cell
deriving DecidableEq

/-- The parsed measure of a row: `df['y'].apply(parse_br_number)` followed
by `pd.to_numeric(errors='coerce')` (src/app.py 49-51). -/
def Obs.y (o : Obs) : Option ℚ := parse_br_number o.raw

/-- One accumulator entry of the group-by: a `(UF, year, partial sum)`. -/
abbrev PivotAcc := List (String × ℤ × ℚ)

/-- Add `v` to the `(uf, yr)` group, creating the group if absent. -/
def upd : PivotAcc → String → ℤ → ℚ → PivotAcc
  | [], uf, yr, v => [(uf, yr, v)]
  | e :: t, uf, yr, v =>
    if e.1 = uf ∧ e.2.1 = yr then (e.1, e.2.1, e.2.2 + v) :: t
    else e :: upd t uf yr v

/-- One group-by step: a row with a missing/unparseable `y` contributes
nothing (pandas drops NaN values before aggregating). -/
def pivotStep (m : PivotAcc) (o : Obs) : PivotAcc :=
  match o.y with
  | Option.none => m
  | some v => upd m o.uf o.ds.year v

/-- Embeds `pivot_table(index="UF", columns="Year", values="y",
aggfunc="sum", fill_value=0)` (src/app.py 126 and 236) as an incremental
group-by-sum over the rows. -/
def pivotTable (obs : List Obs) : PivotAcc :=
  obs.foldl pivotStep []

/-- Read one group's sum, `0` when absent. -/
def lookupCell : PivotAcc → String → ℤ → ℚ
  | [], _, _ => 0
  | e :: t, uf, yr => if e.1 = uf ∧ e.2.1 = yr then e.2.2 else lookupCell t uf yr

/-- One cell of the pivot table: `fill_value=0`, the `pivot_years[yr] = 0`
column defaulting (src/app.py 128-130, 237-239) and the empty-row default
of `get_year_value` are all reads of an absent group as `0`. -/
def pivotCell (obs : List Obs) (uf : String) (yr : ℤ) : ℚ :=
  lookupCell (pivotTable obs) uf yr

/-- Spec-side formula (`yearly_total`): the sum of all parsed observation
values for the region whose timestamp falls in the year; missing and
unparseable values are excluded from the sum, not zero-filled. -/
def yearly_total_spec (obs : List Obs) (uf : String) (yr : ℤ) : ℚ :=
  ((obs.filter fun o => o.uf = uf ∧ o.ds.year = yr).filterMap Obs.y).sum

theorem lookupCell_upd_self (m : PivotAcc) (uf : String) (yr : ℤ) (v : ℚ) :
    lookupCell (upd m uf yr v) uf yr = lookupCell m uf yr + v := by
  induction m with
  | nil => simp [upd, lookupCell]
  | cons e t ih =>
    by_cases h : e.1 = uf ∧ e.2.1 = yr
    · rw [upd, if_pos h, lookupCell, if_pos h, lookupCell, if_pos h]
    · rw [upd, if_neg h, lookupCell, if_neg h, lookupCell, if_neg h, ih]

theorem lookupCell_upd_ne (m : PivotAcc) {uf uf' : String} {yr yr' : ℤ} (v : ℚ)
    (h : ¬ (uf = uf' ∧ yr = yr')) :
    lookupCell (upd m uf yr v) uf' yr' = lookupCell m uf' yr' := by
  induction m with
  | nil => simp [upd, lookupCell, h]
  | cons e t ih =>
    by_cases h1 : e.1 = uf ∧ e.2.1 = yr
    · have h2 : ¬ (e.1 = uf' ∧ e.2.1 = yr') := by
        rintro ⟨ha, hb⟩
        exact h ⟨h1.1 ▸ ha, h1.2 ▸ hb⟩
      rw [upd, if_pos h1, lookupCell, if_neg h2, lookupCell, if_neg h2]
    · by_cases h2 : e.1 = uf' ∧ e.2.1 = yr'
      · rw [upd, if_neg h1, lookupCell, if_pos h2, lookupCell, if_pos h2]
      · rw [upd, if_neg h1, lookupCell, if_neg h2, lookupCell, if_neg h2, ih]

theorem yearly_total_spec_cons (o : Obs) (t : List Obs) (uf : String) (yr : ℤ) :
    yearly_total_spec (o :: t) uf yr
      = (if o.uf = uf ∧ o.ds.year = yr then (o.y).getD 0 else 0)
        + yearly_total_spec t uf yr := by
  by_cases hm : o.uf = uf ∧ o.ds.year = yr
  · cases hy : o.y with
    | none => simp [yearly_total_spec, List.filter_cons, hm, hy]
    | some v => simp [yearly_total_spec, List.filter_cons, hm, hy]
  · simp [yearly_total_spec, List.filter_cons, hm]

theorem lookupCell_foldl (obs : List Obs) (m : PivotAcc) (uf : String) (yr : ℤ) :
    lookupCell (obs.foldl pivotStep m) uf yr
      = lookupCell m uf yr + yearly_total_spec obs uf yr := by
  induction obs generalizing m with
  | nil => simp [yearly_total_spec]
  | cons o t ih =>
    rw [List.foldl_cons, ih, yearly_total_spec_cons]
    unfold pivotStep
    cases hy : o.y with
    | none => simp [hy]
    | some v =>
      by_cases hm : o.uf = uf ∧ o.ds.year = yr
      · rw [if_pos hm, hm.1, hm.2, lookupCell_upd_self]
        simp [add_assoc]
      · rw [if_neg hm, lookupCell_upd_ne m v hm]
        simp

/-- The group-by fold computes exactly the spec-side filter-and-sum. -/
theorem pivotCell_eq_spec (obs : List Obs) (uf : String) (yr : ℤ) :
    pivotCell obs uf yr = yearly_total_spec obs uf yr := by
  have h := lookupCell_foldl obs [] uf yr
  simpa [pivotCell, pivotTable, lookupCell] using h

/-- C2: for every region and year, the yearly total computed by the
aggregation step (the pivot-table cell) equals the sum of the parsed
observation values of that region whose timestamp falls in that year;
missing/unparseable values are excluded from the sum, not zero-filled. -/
theorem c2_aggregation_additivity (obs : List Obs) (uf : String) (yr : ℤ) :
    pivotCell obs uf yr
      = ((obs.filter fun o => o.uf = uf ∧ o.ds.year = yr).filterMap Obs.y).sum :=
  pivotCell_eq_spec obs uf yr

/-- Python `int()` applied to a float: truncation toward zero. -/
def pyInt (q : ℚ) : ℤ := if 0 ≤ q then ⌊q⌋ else ⌈q⌉

/-- Embeds `get_year_value` (src/app.py 132-136): the pivot cell for
`(uf, year)` truncated by `int()`, `0` when the row or column is absent. -/
def get_year_value (obs : List Obs) (uf : String) (yr : ℤ) : ℤ :=
  pyInt (pivotCell obs uf yr)

/-- Embeds `get_year_all` (src/app.py 241-245), identical to
`get_year_value` but read off the all-regions pivot. -/
def get_year_all (obs : List Obs) (uf : String) (yr : ℤ) : ℤ :=
  pyInt (pivotCell obs uf yr)

/-- pandas `Series.clip(lower=lo)` on one value. -/
def clipLower (lo x : ℚ) : ℚ := if x < lo then lo else x

/-- Python `max(a, b)` on two ints (used as `max(0, delta)`). -/
def pymax (a b : ℤ) : ℤ := if a < b then b else a

/-- Python `dict.get(uf, 0.0)` over the projection map. -/
def lookupProj : List (String × ℚ) → String → ℚ
  | [], _ => 0
  | e :: t, uf => if e.1 = uf then e.2 else lookupProj t uf

/-- One row of the "Ranking de Maiores Quedas por UF (Base Real)"
(src/app.py 139-160). -/
structure RealRow where
  uf : String
  q_2024_2023 : ℤ
  q_2025_2023 : ℤ
  q_2025_2024 : ℤ
  maxQ : ℤ
deriving DecidableEq

/-- Build one real-ranking row for `uf` from the (filtered) observation
set, as the loop at src/app.py 143-149 and the `max(axis=1)` at 157-159. -/
def mkRealRow (obs : List Obs) (uf : String) : RealRow :=
  let y2023 := get_year_value obs uf 2023
  let y2024 := get_year_value obs uf 2024
  let y2025 := get_year_value obs uf 2025
  let q1 := pymax 0 (y2023 - y2024)
  let q2 := pymax 0 (y2023 - y2025)
  let q3 := pymax 0 (y2024 - y2025)
  ⟨uf, q1, q2, q3, max (max q1 q2) q3⟩

/-- `ranking_real` (src/app.py 151-159): one row per selected UF, in the
selection's order. -/
def ranking_real (obs : List Obs) (sel : List String) : List RealRow :=
  sel.map (mkRealRow obs)

/-- Non-increasing order on real-ranking rows by their sort key. -/
def realGE (a b : RealRow) : Prop := b.maxQ ≤ a.maxQ

instance : DecidableRel realGE := fun a b => inferInstanceAs (Decidable (b.maxQ ≤ a.maxQ))

instance : IsTotal RealRow realGE := ⟨fun a b => le_total b.maxQ a.maxQ⟩

instance : IsTrans RealRow realGE := ⟨fun _ _ _ h1 h2 => le_trans h2 h1⟩

/-- `ranking_real_sorted` (src/app.py 160): `sort_values` descending by
`"Max Queda (Real)"`; the embedding uses insertion sort as a deterministic
representative of the sort contract. -/
def ranking_real_sorted (obs : List Obs) (sel : List String) : List RealRow :=
  List.insertionSort realGE (ranking_real obs sel)

/-- One row of the "Ranking Geral - Todas as UFs (Projetado 2025)"
(src/app.py 268-279). -/
structure RankRow where
  uf : String
  exec2023 : ℤ
  exec2024 : ℤ
  proj2025 : ℚ
  queda_2024_2023 : ℚ
  queda_2025_2023 : ℚ
  queda_2025_2024 : ℚ
  maxQueda : ℚ
deriving DecidableEq

/-- Build one all-regions ranking row for `uf`: executed 2023/2024 totals
via `get_year_all`, the projected 2025 total via `.get(uf, 0.0)`, the three
`.clip(lower=0)` declines and their row maximum (src/app.py 268-279). -/
def mkRankRow (obs : List Obs) (proj : List (String × ℚ)) (uf : String) : RankRow :=
  let e23 := get_year_all obs uf 2023
  let e24 := get_year_all obs uf 2024
  let p25 := lookupProj proj uf
  let q1 := clipLower 0 ((e23 : ℚ) - (e24 : ℚ))
  let q2 := clipLower 0 ((e23 : ℚ) - p25)
  let q3 := clipLower 0 ((e24 : ℚ) - p25)
  ⟨uf, e23, e24, p25, q1, q2, q3, max (max q1 q2) q3⟩

/-- Code-point lexicographic comparison of character lists, the order
Python `sorted` uses on strings. -/
def charListLE : List Char → List Char → Bool
  | [], _ => true
  | _ :: _, [] => false
  | a :: as, b :: bs =>
    if a.toNat < b.toNat then true
    else if b.toNat < a.toNat then false
    else charListLE as bs

/-- String order used by Python `sorted` over the unique UFs. -/
def strLE (a b : String) : Prop := charListLE a.toList b.toList = true

instance : DecidableRel strLE := fun a b => inferInstanceAs (Decidable (charListLE a.toList b.toList = true))

/-- `all_ufs = sorted(df["UF"].dropna().unique())` (src/app.py 231): the
distinct regions of the full observation set, sorted. -/
def all_ufs (obs : List Obs) : List String :=
  List.insertionSort strLE (obs.map Obs.uf).dedup

/-- `ranking_all` (src/app.py 268-279): one row per region of the full
observation set. -/
def ranking_all (obs : List Obs) (proj : List (String × ℚ)) : List RankRow :=
  (all_ufs obs).map (mkRankRow obs proj)

/-- Non-increasing order on all-regions ranking rows by their sort key. -/
def rankGE (a b : RankRow) : Prop := b.maxQueda ≤ a.maxQueda

instance : DecidableRel rankGE := fun a b => inferInstanceAs (Decidable (b.maxQueda ≤ a.maxQueda))

instance : IsTotal RankRow rankGE := ⟨fun a b => le_total b.maxQueda a.maxQueda⟩

instance : IsTrans RankRow rankGE := ⟨fun _ _ _ h1 h2 => le_trans h2 h1⟩

/-- `ranking_all_sorted` (src/app.py 281): `sort_values` descending by
`"Max Queda (Proj)"`, insertion sort as deterministic representative. -/
def ranking_all_sorted (obs : List Obs) (proj : List (String × ℚ)) : List RankRow :=
  List.insertionSort rankGE (ranking_all obs proj)

/-- What pandas `sort_values(by=key, ascending=False)` with the default
`kind='quicksort'` guarantees about its output: a permutation of the input
rows that is pairwise non-increasing in the key.  pandas documents
`quicksort` as not stable, so the tie order is NOT part of the contract. -/
def IsSortValuesDescOutput (inp out : List RankRow) : Prop :=
  out.Perm inp ∧ List.Sorted rankGE out

/-- The same contract for the real-base ranking. -/
def IsSortValuesDescOutputReal (inp out : List RealRow) : Prop :=
  out.Perm inp ∧ List.Sorted realGE out

theorem clipLower_zero_eq_max (x : ℚ) : clipLower 0 x = max 0 x := by
  rcases lt_or_le x 0 with h | h
  · rw [clipLower, if_pos h, max_eq_left (le_of_lt h)]
  · rw [clipLower, if_neg (not_lt.mpr h), max_eq_right h]

theorem pymax_zero_eq_max (d : ℤ) : pymax 0 d = max 0 d := by
  rcases lt_or_le 0 d with h | h
  · rw [pymax, if_pos h, max_eq_right (le_of_lt h)]
  · rw [pymax, if_neg (not_lt.mpr h), max_eq_left h]

/-- C3: the decline primitives of both rankings — Python `max(0, a - b)` in
the real-base loop (src/app.py 147-149) and pandas `.clip(lower=0)` on the
difference columns (src/app.py 273-275) — both equal `max(0, a - b)` and
are therefore non-negative: growth comes out as zero decline, never as a
negative number; and every decline field of every ranking row is of this
shape. -/
theorem c3_decline_clamp :
    (∀ a b : ℚ, clipLower 0 (a - b) = max 0 (a - b) ∧ 0 ≤ clipLower 0 (a - b)) ∧
    (∀ a b : ℤ, pymax 0 (a - b) = max 0 (a - b) ∧ 0 ≤ pymax 0 (a - b)) ∧
    (∀ obs proj uf,
        (mkRankRow obs proj uf).queda_2024_2023
            = max 0 (((mkRankRow obs proj uf).exec2023 : ℚ)
                - ((mkRankRow obs proj uf).exec2024 : ℚ)) ∧
        (mkRankRow obs proj uf).queda_2025_2023
            = max 0 (((mkRankRow obs proj uf).exec2023 : ℚ)
                - (mkRankRow obs proj uf).proj2025) ∧
        (mkRankRow obs proj uf).queda_2025_2024
            = max 0 (((mkRankRow obs proj uf).exec2024 : ℚ)
                - (mkRankRow obs proj uf).proj2025)) ∧
    (∀ obs uf,
        (mkRealRow obs uf).q_2024_2023
            = max 0 (get_year_value obs uf 2023 - get_year_value obs uf 2024) ∧
        (mkRealRow obs uf).q_2025_2023
            = max 0 (get_year_value obs uf 2023 - get_year_value obs uf 2025) ∧
        (mkRealRow obs uf).q_2025_2024
            = max 0 (get_year_value obs uf 2024 - get_year_value obs uf 2025)) := by
  refine ⟨fun a b => ⟨clipLower_zero_eq_max _, ?_⟩,
    fun a b => ⟨pymax_zero_eq_max _, ?_⟩,
    fun obs proj uf => ⟨clipLower_zero_eq_max _, clipLower_zero_eq_max _,
      clipLower_zero_eq_max _⟩,
    fun obs uf => ⟨pymax_zero_eq_max _, pymax_zero_eq_max _, pymax_zero_eq_max _⟩⟩
  · rw [clipLower_zero_eq_max]; exact le_max_left 0 _
  · rw [pymax_zero_eq_max]; exact le_max_left 0 _

/-- C9: every yearly total entering a ranking's delta computation is the
`int()`-truncation (toward zero: floor for non-negative sums, ceiling for
negative ones) of the float sum of the parsed observation values for that
region and year, in both `get_year_value` and `get_year_all`; the
projected-2025 value of a ranking row is the raw projection-map float,
untruncated. -/
theorem c9_yearly_totals_truncated (obs : List Obs) (proj : List (String × ℚ))
    (uf : String) (yr : ℤ) :
    get_year_all obs uf yr
        = (if 0 ≤ yearly_total_spec obs uf yr then ⌊yearly_total_spec obs uf yr⌋
           else ⌈yearly_total_spec obs uf yr⌉) ∧
    get_year_value obs uf yr = get_year_all obs uf yr ∧
    (mkRankRow obs proj uf).proj2025 = lookupProj proj uf := by
  refine ⟨?_, rfl, rfl⟩
  rw [get_year_all, pyInt, pivotCell_eq_spec]

/-- C4 (amended): each ranking row's primary sort key is the maximum of its
configured decline deltas, and the sorted ranking satisfies the contract of
pandas `sort_values(ascending=False)`: a permutation of the rows, pairwise
non-increasing in the key.  The tie order is not part of the contract (the
code uses the default non-stable quicksort), so no stable-tie-break clause
appears here. -/
theorem c4_amended (obs : List Obs) (proj : List (String × ℚ)) (sel : List String) :
    IsSortValuesDescOutput (ranking_all obs proj) (ranking_all_sorted obs proj) ∧
    (∀ uf, (mkRankRow obs proj uf).maxQueda
        = max (max (mkRankRow obs proj uf).queda_2024_2023
            (mkRankRow obs proj uf).queda_2025_2023)
          (mkRankRow obs proj uf).queda_2025_2024) ∧
    IsSortValuesDescOutputReal (ranking_real obs sel) (ranking_real_sorted obs sel) ∧
    (∀ uf, (mkRealRow obs uf).maxQ
        = max (max (mkRealRow obs uf).q_2024_2023 (mkRealRow obs uf).q_2025_2023)
          (mkRealRow obs uf).q_2025_2024) :=
  ⟨⟨List.perm_insertionSort rankGE _, List.sorted_insertionSort rankGE _⟩,
    fun _ => rfl,
    ⟨List.perm_insertionSort realGE _, List.sorted_insertionSort realGE _⟩,
    fun _ => rfl⟩

/-- Two regions with identical histories, hence tied sort keys. -/
def obs4c : List Obs :=
  [⟨"AC", ⟨2023, 1⟩, Cell.num 5⟩, ⟨"BA", ⟨2023, 1⟩, Cell.num 5⟩]

/-- C4 (counterexample): the code's sort contract does not determine the
tie order.  On two tied rows the swapped output also satisfies everything
`sort_values` with the default non-stable `quicksort` guarantees, yet it
differs from the stable (insertion-order) output the claim asserts; so
"ties broken by stable input order" is not a property of the code. -/
theorem c4_counterexample :
    IsSortValuesDescOutput (ranking_all obs4c [])
      [mkRankRow obs4c [] "BA", mkRankRow obs4c [] "AC"] ∧
    [mkRankRow obs4c [] "BA", mkRankRow obs4c [] "AC"] ≠ ranking_all obs4c [] := by
  have hlist : ranking_all obs4c [] = [mkRankRow obs4c [] "AC", mkRankRow obs4c [] "BA"] := rfl
  have hAC : (mkRankRow obs4c [] "AC").maxQueda = 5 := by
    norm_num +decide [mkRankRow, get_year_all, pivotCell, pivotTable, pivotStep, upd,
      lookupCell, Obs.y, parse_br_number, obs4c, pyInt, clipLower, lookupProj, max_def]
  have hBA : (mkRankRow obs4c [] "BA").maxQueda = 5 := by
    norm_num +decide [mkRankRow, get_year_all, pivotCell, pivotTable, pivotStep, upd,
      lookupCell, Obs.y, parse_br_number, obs4c, pyInt, clipLower, lookupProj, max_def]
  refine ⟨⟨?_, ?_⟩, ?_⟩
  · rw [hlist]; exact List.Perm.swap _ _ _
  · refine List.sorted_cons.mpr ⟨?_, List.sorted_singleton _⟩
    intro b hb
    rw [List.mem_singleton] at hb
    subst hb
    show (mkRankRow obs4c [] "AC").maxQueda ≤ (mkRankRow obs4c [] "BA").maxQueda
    rw [hAC, hBA]
  · rw [hlist]
    intro h
    rw [List.cons.injEq] at h
    exact absurd (congrArg RankRow.uf h.1) (by decide)

theorem lookupProj_eq_zero (proj : List (String × ℚ)) (uf : String)
    (h : ∀ e ∈ proj, e.1 ≠ uf) : lookupProj proj uf = 0 := by
  induction proj with
  | nil => rfl
  | cons e t ih =>
    rw [lookupProj, if_neg (h e (List.mem_cons_self e t))]
    exact ih fun e' he' => h e' (List.mem_cons_of_mem e he')

/-- C5: a region present in the observation set but absent from the
projection map still gets its ranking row (the all-regions ranking iterates
every distinct region of the data), and its projection total defaults to
zero via `.get(uf, 0.0)`; the computation neither fails nor skips the
row. -/
theorem c5_missing_projection (obs : List Obs) (proj : List (String × ℚ)) (uf : String)
    (hobs : ∃ o ∈ obs, o.uf = uf) (hproj : ∀ e ∈ proj, e.1 ≠ uf) :
    ∃ r ∈ ranking_all obs proj, r.uf = uf ∧ r.proj2025 = 0 := by
  have hm : uf ∈ all_ufs obs := by
    obtain ⟨o, ho, he⟩ := hobs
    rw [all_ufs, List.mem_insertionSort, List.mem_dedup]
    exact he ▸ List.mem_map_of_mem Obs.uf ho
  exact ⟨mkRankRow obs proj uf, List.mem_map_of_mem _ hm, rfl,
    lookupProj_eq_zero proj uf hproj⟩

/-- A one-region observation set for the C5 witness. -/
def obs5w : List Obs := [⟨"RJ", ⟨2023, 1⟩, Cell.num 10⟩]

theorem c5_witness :
    ∃ r ∈ ranking_all obs5w [], r.uf = "RJ" ∧ r.proj2025 = 0 :=
  c5_missing_projection obs5w [] "RJ"
    ⟨⟨"RJ", ⟨2023, 1⟩, Cell.num 10⟩, by simp [obs5w], rfl⟩ (by simp)

/-- A region with realized values in 2023, 2024 and also in 2025. -/
def obs6c : List Obs :=
  [⟨"SP", ⟨2023, 1⟩, Cell.num 1000⟩, ⟨"SP", ⟨2024, 1⟩, Cell.num 800⟩,
    ⟨"SP", ⟨2025, 1⟩, Cell.num 50⟩]

def proj6c : List (String × ℚ) := [("SP", 900)]

/-- C6 (counterexample): with a realized 2025 sum of 50 and a projected
2025 total of 900, the ranking's current-period value is 900 — the
projection alone — not the claimed realized-plus-projected 950: the code
never adds the realized 2025 sum into the ranking's 2025 column. -/
theorem c6_counterexample :
    (ranking_all obs6c proj6c).map RankRow.proj2025 = [(900 : ℚ)] ∧
    pivotCell obs6c "SP" 2025 = 50 ∧
    (900 : ℚ) ≠ 50 + 900 := by
  refine ⟨rfl, rfl, by norm_num⟩

/-- The spec's scenario: 2023 total 1000, 2024 total 800, projected 2025
total 900, no realized 2025 observations. -/
def obs6w : List Obs :=
  [⟨"SP", ⟨2023, 1⟩, Cell.num 1000⟩, ⟨"SP", ⟨2024, 1⟩, Cell.num 800⟩]

def proj6w : List (String × ℚ) := [("SP", 900)]

/-- C6 (amended): the current-period (2025) value used by the projected
ranking is the projection-map value alone; realized 2025 observations are
not added to it.  In the spec's scenario (2023 = 1000, 2024 = 800,
projected 2025 = 900, realized 2025 = 0) the row comes out with
decline(2023, 2025) = 100 and decline(2024, 2025) = 0 as claimed. -/
theorem c6_amended :
    (∀ obs proj uf, (mkRankRow obs proj uf).proj2025 = lookupProj proj uf) ∧
    pivotCell obs6w "SP" 2025 = 0 ∧
    ranking_all obs6w proj6w = [⟨"SP", 1000, 800, 900, 200, 100, 0, 200⟩] := by
  refine ⟨fun _ _ _ => rfl, rfl, ?_⟩
  have hr : ranking_all obs6w proj6w = [mkRankRow obs6w proj6w "SP"] := rfl
  rw [hr]
  have hrow : mkRankRow obs6w proj6w "SP" = ⟨"SP", 1000, 800, 900, 200, 100, 0, 200⟩ := by
    norm_num +decide [mkRankRow, get_year_all, pivotCell, pivotTable, pivotStep, upd,
      lookupCell, Obs.y, parse_br_number, obs6w, proj6w, pyInt, clipLower, lookupProj, max_def]
  rw [hrow]

/-- The UI configuration that feeds the filtered view (src/app.py 70-77):
the selected regions and the inclusive date range. -/
structure Config where
  ufs_selected : List String
  start_date : Date
  end_date : Date

/-- `df_uf` (src/app.py 77): the observation set filtered to the selected
regions and the date range. -/
def df_uf (obs : List Obs) (cfg : Config) : List Obs :=
  obs.filter fun o =>
    o.uf ∈ cfg.ufs_selected ∧ dateLE cfg.start_date o.ds ∧ dateLE o.ds cfg.end_date

/-- `df_u["ds"].max()` on a nonempty per-region series. -/
def lastDate : List Obs → Date
  | [] => ⟨0, 0⟩
  | o :: t => t.foldl (fun a x => if dateLT a x.ds then x.ds else a) o.ds

/-- `proj_2025_by_uf_all` (src/app.py 248-265): for every region of the
full data, the sum of the oracle's `yhat` over forecast rows strictly after
the region's last historical month and falling in 2025; an empty region
series contributes `0.0` without calling the oracle.  The oracle stands for
the external Prophet `fit`/`predict` collaborator. -/
def proj_2025_by_uf_all (obs : List Obs)
    (oracle : List Obs → ℕ → List (Date × ℚ)) (horizon : ℕ) :
    List (String × ℚ) :=
  (all_ufs obs).map fun uf =>
    let df_u := obs.filter fun o => o.uf = uf
    if df_u.isEmpty then (uf, 0)
    else
      let forecast_future := (oracle df_u horizon).filter fun p => dateLT (lastDate df_u) p.1
      (uf, ((forecast_future.filter fun p => p.1.year = 2025).map Prod.snd).sum)

/-- The two ranking tables the dashboard renders. -/
structure Output where
  real_sorted : List RealRow
  all_sorted : List RankRow

/-- The whole per-interaction computation of src/app.py: the selected-UFs
real ranking from the filtered data, and the all-regions projected ranking
from the full data. -/
def run_app (obs : List Obs) (oracle : List Obs → ℕ → List (Date × ℚ))
    (cfg : Config) (horizon : ℕ) : Output :=
  { real_sorted := ranking_real_sorted (df_uf obs cfg) cfg.ufs_selected,
    all_sorted := ranking_all_sorted obs (proj_2025_by_uf_all obs oracle horizon) }

/-- C10: the all-regions projected ranking is computed from the full
unfiltered observation set: two runs on the same loaded data and the same
horizon that differ only in the selected-regions subset or the date-range
filter produce identical all-regions ranking tables — same rows, same
values, same order. -/
theorem c10_all_ranking_filter_independent (obs : List Obs)
    (oracle : List Obs → ℕ → List (Date × ℚ)) (horizon : ℕ) (cfg cfg' : Config) :
    (run_app obs oracle cfg horizon).all_sorted
      = (run_app obs oracle cfg' horizon).all_sorted := rfl

end Reservas
